import Mathlib

/-!
# Verification of the Incremental Archive Synchronization Engine

A shallow embedding of `src/playlist_downloader.py` (class `PlaylistDownloader`)
and proofs about its per-item synchronization algorithm.

Modelling conventions:
- Python strings are `String`; Python `None` for a string-valued field is
  `Option String` with `none`.
- A Python dict used as a keyed store is an association list preserving
  insertion order (assignment to an existing key keeps its position;
  assignment to a fresh key appends at the end), matching CPython semantics.
- The filesystem is the set of existing file paths, kept as a duplicate-free
  `List String`; `os.path.exists` is list membership.
- The network (yt-dlp) is an oracle: for each retry attempt number it reports
  either an exception (`raise`), a falsy info object (`noInfo`), or a
  successful extraction reporting a filename plus the set of files it wrote
  to disk (`ok`).
- Side effects that the spec's claims quantify over (fetcher invocations and
  store persistence) are reified as an `Event` trace.
-/

/-! ## Path helpers (os.path / pathlib as used by the source) -/

/-- Characters of the final path component (`pathlib.Path.name`). -/
def basenameChars (l : List Char) : List Char :=
  (l.reverse.takeWhile (fun c => c ≠ '/')).reverse

/-- `pathlib.Path(p).name`. -/
def basename (p : String) : String := ⟨basenameChars p.data⟩

/-- `pathlib.Path(p).parent` as a string (for paths containing a slash). -/
def dirname (p : String) : String :=
  ⟨(((p.data.reverse.dropWhile (fun c => c ≠ '/'))).drop 1).reverse⟩

/-- `target_dir / name` (pathlib `/` operator). -/
def joinPath (d n : String) : String := d ++ "/" ++ n

/-- Does `pat` occur at the head of `l`? (plain list matching). -/
def leadMatch : List Char → List Char → Bool
  | [], _ => true
  | _ :: _, [] => false
  | a :: as, b :: bs => a == b && leadMatch as bs

/-- Does `pat` occur anywhere inside `l`? Models a `*pat*` glob on a name. -/
def hasSubstr (pat : List Char) : List Char → Bool
  | [] => pat.isEmpty
  | c :: rest => leadMatch pat (c :: rest) || hasSubstr pat rest

/-- Index of the last `'.'` in `l`, if any. -/
def lastDotIndex (l : List Char) : Option Nat :=
  if l.contains '.' then
    some (l.length - 1 - (l.reverse.takeWhile (fun c => c ≠ '.')).length)
  else none

/-- `pathlib.PurePath(name).suffix` for a bare file name. -/
def pathSuffix (name : String) : String :=
  match lastDotIndex name.data with
  | some i => if 0 < i ∧ i < name.data.length - 1 then ⟨name.data.drop i⟩ else ""
  | none => ""

/-- `pathlib.PurePath(name).stem` for a bare file name. -/
def pathStem (name : String) : String :=
  match lastDotIndex name.data with
  | some i => if 0 < i ∧ i < name.data.length - 1 then ⟨name.data.take i⟩ else name
  | none => name

/-- `os.path.splitext` on a full path: split at the last dot of the basename,
provided some non-dot character of the basename comes before it. -/
def splitext (p : String) : String × String :=
  let b := basenameChars p.data
  let dirLen := p.data.length - b.length
  match lastDotIndex b with
  | some i =>
    if (b.take i).any (fun c => c ≠ '.') then
      (⟨p.data.take (dirLen + i)⟩, ⟨b.drop i⟩)
    else (p, "")
  | none => (p, "")

/-- Python f-string interpolation of a possibly-`None` value. -/
def pyStr : Option String → String
  | none => "None"
  | some s => s

/-! ## Data model -/

/-- One record of the Global Item Index
(`global_video_index.json`: `{"<id>": {"title": ..., "files": [...]}}`). -/
structure IdxRecord where
  title : Option String
  files : List String
deriving DecidableEq

/-- The Global Item Index: item id (a Python dict key, which can be `None`)
to its record, in insertion order. -/
abbrev GlobalIndex := List (Option String × IdxRecord)

/-- One per-item record of a List Status Store
(a value of `metadata['videos']`).  A key that is absent from the Python
dict is modelled by `none`. -/
structure VideoRecord where
  title : Option String
  url : String
  status : String
  downloaded_at : Option String
  failed_at : Option String
  file : Option String
  copied_from : Option String
deriving DecidableEq

/-- A List Status Store (`playlist_metadata.json` for one playlist). -/
structure Metadata where
  playlist_id : Option String
  playlist_title : Option String
  playlist_url : String
  videos : List (Option String × VideoRecord)
deriving DecidableEq

/-- A transient item descriptor as built by `get_playlist_videos`. -/
structure VideoDesc where
  id : Option String
  title : Option String
  url : String
  playlist_index : Nat
deriving DecidableEq

/-- A raw flat-extraction entry as returned by yt-dlp for one playlist item;
`none` stands for a falsy entry (`if entry:` fails). -/
structure RawEntry where
  id : Option String
  title : Option String
  url : Option String
deriving DecidableEq

/-! ## Association-list operations (Python dict semantics) -/

/-- Dict lookup: first binding of the key wins (keys are unique by
construction, as in a Python dict). -/
def alookup {α β : Type} [DecidableEq α] : List (α × β) → α → Option β
  | [], _ => none
  | (k, v) :: rest, k' => if k = k' then some v else alookup rest k'

/-- Dict assignment: overwrite in place if the key exists (CPython keeps the
key's insertion position), append at the end otherwise. -/
def aupdate {α β : Type} [DecidableEq α] : List (α × β) → α → β → List (α × β)
  | [], k, v => [(k, v)]
  | (k0, v0) :: rest, k, v =>
      if k0 = k then (k, v) :: rest else (k0, v0) :: aupdate rest k v

theorem alookup_aupdate_self {α β : Type} [DecidableEq α]
    (l : List (α × β)) (k : α) (v : β) : alookup (aupdate l k v) k = some v := by
  induction l with
  | nil => simp [aupdate, alookup]
  | cons hd tl ih =>
    obtain ⟨k0, v0⟩ := hd
    by_cases h : k0 = k
    · simp [aupdate, h, alookup]
    · simp [aupdate, h, alookup, ih]

theorem alookup_append_of_none {α β : Type} [DecidableEq α]
    (l m : List (α × β)) (k : α) (h : alookup l k = none) :
    alookup (l ++ m) k = alookup m k := by
  induction l with
  | nil => simp
  | cons hd tl ih =>
    obtain ⟨k0, v0⟩ := hd
    by_cases hk : k0 = k
    · simp [alookup, hk] at h
    · simp [alookup, hk] at h ⊢
      exact ih h

/-! ## Loading the Global Item Index (`_load_global_index`, lines 66–71)

```python
def _load_global_index(self) -> Dict:
    if self.global_index_path.exists():
        with open(self.global_index_path, 'r', encoding='utf-8') as f:
            return json.load(f)
    return {}
```

`json.load` raises `json.JSONDecodeError` on content that is not valid JSON.
There is no `try`/`except` here, nor in `__init__` nor in `main`, so the
exception propagates and terminates the run.  The parse step is modelled by a
`parsed : Option GlobalIndex` argument (`none` = undecodable content) and the
propagating exception by `Except.error`. -/
def load_global_index (fileExists : Bool) (parsed : Option GlobalIndex) :
    Except Unit GlobalIndex :=
  if fileExists then
    match parsed with
    | some g => Except.ok g
    | none => Except.error ()
  else Except.ok []

/-! ## Retrying Fetcher (`download_video`, lines 204–263)

```python
for attempt in range(1, self.MAX_RETRIES + 1):
    try:
        with yt_dlp.YoutubeDL(ydl_opts) as ydl:
            info = ydl.extract_info(video_url, download=True)
            if info:
                filename = ydl.prepare_filename(info)
                if os.path.exists(filename):
                    return filename
                base_name = os.path.splitext(filename)[0]
                for ext in ['.mp4', '.webm', '.mkv']:
                    potential_file = base_name + ext
                    if os.path.exists(potential_file):
                        return potential_file
    except Exception as e:
        if attempt < self.MAX_RETRIES:
            wait_time = 2 ** attempt
            time.sleep(wait_time)
return None
```

Each attempt is an oracle outcome: an exception anywhere in the `try` block
(`raise`), a falsy `info` (`noInfo`), or a successful extraction that reports
`filename` and wrote some set of files to disk (`ok`). -/

def MAX_RETRIES : Nat := 3

inductive Attempt where
  | raise
  | noInfo
  | ok (fname : String) (written : List String)
deriving DecidableEq

/-- Alternate media extensions probed after a reported success. -/
def mediaExts : List String := [".mp4", ".webm", ".mkv"]

/-- Insert a path into the filesystem set. -/
def fsAdd (fs : List String) (p : String) : List String :=
  if p ∈ fs then fs else fs ++ [p]

/-- Outcome of `download_video`: the returned path (or `None`), the sleeps
performed (in seconds, in order), the number of attempts begun, and the
filesystem after all attempts. -/
structure DlResult where
  result : Option String
  waits : List Nat
  attempts : Nat
  fs : List String
deriving DecidableEq

/-- The inner `for ext in ['.mp4', '.webm', '.mkv']` probe. -/
def findAlt (fs : List String) (base : String) : List String → Option String
  | [] => none
  | e :: rest => if (base ++ e) ∈ fs then some (base ++ e) else findAlt fs base rest

/-- The retry loop of `download_video`, iterating over the remaining attempt
numbers.  A sleep of `2 ^ attempt` happens only in the `except` handler and
only while `attempt < MAX_RETRIES`; a reported success whose output file
cannot be located falls through to the next attempt without sleeping. -/
def downloadLoop (oracle : Nat → Attempt) :
    List Nat → List String → List Nat → Nat → DlResult
  | [], fs, waits, n => ⟨none, waits, n, fs⟩
  | a :: rest, fs, waits, n =>
    match oracle a with
    | Attempt.raise =>
      if a < MAX_RETRIES then downloadLoop oracle rest fs (waits ++ [2 ^ a]) (n + 1)
      else downloadLoop oracle rest fs waits (n + 1)
    | Attempt.noInfo => downloadLoop oracle rest fs waits (n + 1)
    | Attempt.ok fname written =>
      let fs' := written.foldl fsAdd fs
      if fname ∈ fs' then ⟨some fname, waits, n + 1, fs'⟩
      else
        match findAlt fs' ((splitext fname).1) mediaExts with
        | some p => ⟨some p, waits, n + 1, fs'⟩
        | none => downloadLoop oracle rest fs' waits (n + 1)

/-- `download_video` proper: `for attempt in range(1, MAX_RETRIES + 1)`. -/
def download_video (oracle : Nat → Attempt) (fs : List String) : DlResult :=
  downloadLoop oracle ((List.range MAX_RETRIES).map (fun i => i + 1)) fs [] 0

/-! ## Duplication Resolver (`copy_video_from_another_playlist`, lines 265–309)

```python
if video_id not in self.global_index: return False
source_files = self.global_index[video_id].get('files', [])
if not source_files: return False
source_file = source_files[0]
source_path = Path(source_file)
if not source_path.exists(): return False
target_path = target_dir / source_path.name
shutil.copy2(source_path, target_path)
base_name = source_path.stem
for file in source_path.parent.glob(f"{base_name}.*"):
    if file.suffix not in ['.mp4', '.webm', '.mkv']:
        shutil.copy2(file, target_dir / file.name)
return True
```
-/

structure CopyResult where
  ok : Bool
  fs : List String
deriving DecidableEq

def copy_video_from_another_playlist (gidx : GlobalIndex) (fs : List String)
    (vid : Option String) (targetDir : String) : CopyResult :=
  match alookup gidx vid with
  | none => ⟨false, fs⟩
  | some r =>
    match r.files with
    | [] => ⟨false, fs⟩
    | sourceFile :: _ =>
      if sourceFile ∈ fs then
        let tname := basename sourceFile
        let fs1 := fsAdd fs (joinPath targetDir tname)
        let stem := pathStem tname
        let sibs := fs.filter (fun f =>
          (dirname f == dirname sourceFile) &&
          leadMatch (stem ++ ".").data (basenameChars f.data) &&
          !(mediaExts.contains (pathSuffix (basename f))))
        ⟨true, sibs.foldl (fun acc f => fsAdd acc (joinPath targetDir (basename f))) fs1⟩
      else ⟨false, fs⟩

/-! ## Sync Orchestrator (the per-item loop body of `process_playlist`,
lines 461–537) -/

/-- Observable side effects of processing one item: a fetcher invocation
(`download_video` called), a write of the List Status Store
(`json.dump(metadata, ...)`), and a write of the Global Item Index
(`self._save_global_index()`), in program order. -/
inductive Event where
  | fetch
  | persistMeta
  | persistIndex
deriving DecidableEq

/-- The mutable state the loop body touches: the current playlist's metadata
(List Status Store), the Global Item Index, and the filesystem. -/
structure EngineState where
  metadata : Metadata
  gidx : GlobalIndex
  fs : List String
deriving DecidableEq

/-- Lines 516–522 (fetch-success index update):

```python
if video_id not in self.global_index:
    self.global_index[video_id] = {'title': video_title, 'files': []}
self.global_index[video_id]['files'].append(downloaded_file)
```

Note the append is unconditional. -/
def recordNewFileFetch (gidx : GlobalIndex) (vid : Option String)
    (title : Option String) (p : String) : GlobalIndex :=
  let g1 := match alookup gidx vid with
    | some _ => gidx
    | none => gidx ++ [(vid, ⟨title, []⟩)]
  match alookup g1 vid with
  | some e => aupdate g1 vid ⟨e.title, e.files ++ [p]⟩
  | none => g1

/-- Lines 489–493 (copy-success index update), given the already-computed
glob matches:

```python
video_files = list(playlist_dir.glob(f"*{video_id}*"))
if video_files:
    file_path = str(video_files[0])
    if file_path not in self.global_index[video_id]['files']:
        self.global_index[video_id]['files'].append(file_path)
```

The `none` lookup branch is unreachable from the caller (guarded by
line 475's `video_id in self.global_index`). -/
def updateIndexAfterCopy (gidx : GlobalIndex) (vid : Option String)
    (ms : List String) : GlobalIndex :=
  match ms with
  | [] => gidx
  | fp :: _ =>
    match alookup gidx vid with
    | some e => if fp ∈ e.files then gidx else aupdate gidx vid ⟨e.title, e.files ++ [fp]⟩
    | none => gidx

/-- `playlist_dir.glob(f"*{video_id}*")`: files directly in `dir` whose name
contains the textual form of the id. -/
def globIdMatches (fs : List String) (dir idStr : String) : List String :=
  fs.filter (fun p => (dirname p == dir) && hasSubstr idStr.data (basenameChars p.data))

/-- Lines 502–537: `download_video` followed by either the success branch
(record `status=downloaded` with `file` provenance, update the index) or the
failure branch (record `status=failed` with `failed_at` and no provenance,
index untouched), then both stores are persisted. -/
def fetchStep (now : String) (oracle : Nat → Attempt) (st : EngineState)
    (v : VideoDesc) : EngineState × List Event :=
  match (download_video oracle st.fs).result with
  | some p =>
    let rec1 : VideoRecord := ⟨v.title, v.url, "downloaded", some now, none, some p, none⟩
    ({ metadata := { st.metadata with videos := aupdate st.metadata.videos v.id rec1 },
       gidx := recordNewFileFetch st.gidx v.id v.title p,
       fs := (download_video oracle st.fs).fs },
     [Event.fetch, Event.persistMeta, Event.persistIndex])
  | none =>
    let rec2 : VideoRecord := ⟨v.title, v.url, "failed", none, some now, none, none⟩
    ({ metadata := { st.metadata with videos := aupdate st.metadata.videos v.id rec2 },
       gidx := st.gidx,
       fs := (download_video oracle st.fs).fs },
     [Event.fetch, Event.persistMeta, Event.persistIndex])

/-- Lines 474–500: the item is (or is not) in the Global Item Index; if it is,
attempt duplication.  On duplication success, record
`status=downloaded` with `copied_from` provenance (the source's first
recorded file, line 484), run the glob-based index update, persist both
stores, and move on.  On duplication failure, fall through to the fetch. -/
def processVideoCore (dir now : String) (oracle : Nat → Attempt)
    (st : EngineState) (v : VideoDesc) : EngineState × List Event :=
  match alookup st.gidx v.id with
  | some entry =>
    let cr := copy_video_from_another_playlist st.gidx st.fs v.id dir
    if cr.ok then
      let rec3 : VideoRecord :=
        ⟨v.title, v.url, "downloaded", some now, none, none, some (entry.files.headD "")⟩
      ({ metadata := { st.metadata with videos := aupdate st.metadata.videos v.id rec3 },
         gidx := updateIndexAfterCopy st.gidx v.id (globIdMatches cr.fs dir (pyStr v.id)),
         fs := cr.fs },
       [Event.persistMeta, Event.persistIndex])
    else fetchStep now oracle st v
  | none => fetchStep now oracle st v

/-- Lines 461–537, one iteration of `for video in videos`: the skip check
(lines 466–472) in front of `processVideoCore`.  A record with
`status == 'downloaded'` short-circuits with `continue`: no fetch, no copy,
no store mutation, no persist. -/
def process_video_step (dir now : String) (oracle : Nat → Attempt)
    (st : EngineState) (v : VideoDesc) : EngineState × List Event :=
  match alookup st.metadata.videos v.id with
  | some r =>
    if r.status = "downloaded" then (st, [])
    else processVideoCore dir now oracle st v
  | none => processVideoCore dir now oracle st v

/-- The whole `for video in videos` loop of `process_playlist`, threading the
state and concatenating the per-item event traces.  The per-item fetch oracle
is indexed by the descriptor. -/
def process_playlist_videos (dir now : String) (oracles : VideoDesc → Nat → Attempt) :
    EngineState → List VideoDesc → EngineState × List Event
  | st, [] => (st, [])
  | st, v :: vs =>
    let p1 := process_video_step dir now (oracles v) st v
    let p2 := process_playlist_videos dir now oracles p1.1 vs
    (p2.1, p1.2 ++ p2.2)

/-! ## Item enumeration (`get_playlist_videos`, lines 161–202) -/

/-- `entry.get('url') or f"https://www.youtube.com/watch?v={entry.get('id')}"`
(Python `or` falls through on falsy values: `None` or the empty string). -/
def entryUrl (e : RawEntry) : String :=
  match e.url with
  | some u => if u = "" then "https://www.youtube.com/watch?v=" ++ pyStr e.id else u
  | none => "https://www.youtube.com/watch?v=" ++ pyStr e.id

/-- Lines 187–195:

```python
for idx, entry in enumerate(playlist_info['entries']):
    if entry:
        videos.append({'id': entry.get('id'), 'title': entry.get('title'),
                       'url': ..., 'playlist_index': idx})
```

Falsy entries are dropped silently; an entry whose `id` or `title` is `None`
is kept as-is. -/
def get_playlist_videos (entries : List (Option RawEntry)) : List VideoDesc :=
  entries.enum.filterMap (fun pe =>
    match pe.2 with
    | none => none
    | some e => some ⟨e.id, e.title, entryUrl e, pe.1⟩)

/-! ## General lemmas about the embedded operations -/

/-- If every attempt raises, the retry loop makes all three attempts, sleeps
`2 ^ attempt` seconds only while `attempt < MAX_RETRIES` (so 2 s and 4 s),
writes nothing, and returns `None`. -/
theorem download_video_allRaise (oracle : Nat → Attempt) (fs : List String)
    (h1 : oracle 1 = Attempt.raise) (h2 : oracle 2 = Attempt.raise)
    (h3 : oracle 3 = Attempt.raise) :
    download_video oracle fs = ⟨none, [2, 4], 3, fs⟩ := by
  have he : download_video oracle fs = downloadLoop oracle [1, 2, 3] fs [] 0 := rfl
  rw [he]
  simp [downloadLoop, h1, h2, h3, MAX_RETRIES]

/-- `fetchStep` always emits exactly: one fetcher invocation, then a write of
the List Status Store, then a write of the Global Item Index. -/
theorem fetchStep_events (now : String) (orc : Nat → Attempt) (st : EngineState)
    (v : VideoDesc) :
    (fetchStep now orc st v).2 = [Event.fetch, Event.persistMeta, Event.persistIndex] := by
  unfold fetchStep
  cases hd : (download_video orc st.fs).result <;> rfl

/-- A non-skipped item emits either the duplication-success trace or the
fetch trace; both end with the two store writes. -/
theorem processVideoCore_events (dir now : String) (orc : Nat → Attempt)
    (st : EngineState) (v : VideoDesc) :
    (processVideoCore dir now orc st v).2 = [Event.persistMeta, Event.persistIndex] ∨
    (processVideoCore dir now orc st v).2 =
      [Event.fetch, Event.persistMeta, Event.persistIndex] := by
  unfold processVideoCore
  cases hg : alookup st.gidx v.id with
  | none => exact Or.inr (fetchStep_events now orc st v)
  | some e =>
    by_cases hc : (copy_video_from_another_playlist st.gidx st.fs v.id dir).ok = true
    · left
      simp [hc]
    · right
      simp [hc, fetchStep_events]

/-! ## Claim C3 -/

/-- Claim C3 counterexample: an item whose fetch raises on every attempt gets
exactly `MAX_RETRIES` attempts and returns `None`, but the sleeps performed
are 2 s and 4 s — not the claimed 2 s, 4 s and 8 s (the code sleeps only when
`attempt < MAX_RETRIES`, so no sleep follows the final attempt). -/
theorem c3_counterexample :
    (download_video (fun _ => Attempt.raise) []).result = none ∧
    (download_video (fun _ => Attempt.raise) []).attempts = MAX_RETRIES ∧
    (download_video (fun _ => Attempt.raise) []).waits = [2, 4] ∧
    (download_video (fun _ => Attempt.raise) []).waits ≠ [2, 4, 8] := by
  refine ⟨rfl, rfl, rfl, ?_⟩
  decide

/-- Claim C3 (amended): for an item whose fetch raises on every attempt,
`download_video` makes exactly `MAX_RETRIES` (3) attempts, waits `2 ^ attempt`
seconds after each failed attempt except the last (2 s, then 4 s), writes no
file, and returns `None` without raising. -/
theorem c3_amended (oracle : Nat → Attempt) (fs : List String)
    (h : ∀ i, 1 ≤ i → i ≤ MAX_RETRIES → oracle i = Attempt.raise) :
    download_video oracle fs = ⟨none, [2, 4], MAX_RETRIES, fs⟩ :=
  download_video_allRaise oracle fs
    (h 1 (by decide) (by decide)) (h 2 (by decide) (by decide))
    (h 3 (by decide) (by decide))

/-- Claim C3 amended, applied to a concrete always-raising oracle. -/
theorem c3_amended_witness :
    download_video (fun _ => Attempt.raise) [] = ⟨none, [2, 4], MAX_RETRIES, []⟩ :=
  c3_amended (fun _ => Attempt.raise) [] (fun _ _ _ => rfl)

/-! ## Claim C4 -/

/-- Claim C4 counterexample: loading a Global Item Index file whose content
is not valid structured data is NOT treated as an empty store — `json.load`
raises and `_load_global_index` has no handler. -/
theorem c4_counterexample :
    load_global_index true none ≠ Except.ok ([] : GlobalIndex) := by
  simp [load_global_index]

/-- Claim C4 (amended): when the persisted index file exists but its content
fails to parse, `_load_global_index` propagates the parse exception (the run
crashes, no warning, the store is not treated as empty); only an absent file
yields the empty store. -/
theorem c4_amended :
    load_global_index true none = Except.error () ∧
    load_global_index false none = Except.ok ([] : GlobalIndex) := ⟨rfl, rfl⟩

/-! ## Claim C1 -/

/-- Claim C1 (confirmed): if every enumerated item of a list already has a
List Status Store record with `status=downloaded`, re-processing the list is
a no-op: the List Status Store, the Global Item Index and the filesystem are
returned unchanged and the event trace is empty — in particular zero fetcher
invocations and zero store rewrites on the second run. -/
theorem c1_idempotent_rerun (dir now : String) (oracles : VideoDesc → Nat → Attempt)
    (st : EngineState) (videos : List VideoDesc)
    (h : ∀ v ∈ videos, ∃ r, alookup st.metadata.videos v.id = some r ∧
         r.status = "downloaded") :
    process_playlist_videos dir now oracles st videos = (st, []) := by
  induction videos with
  | nil => rfl
  | cons v vs ih =>
    obtain ⟨r, hr, hst⟩ := h v (List.mem_cons_self v vs)
    have hv : process_video_step dir now (oracles v) st v = (st, []) := by
      unfold process_video_step
      rw [hr]
      simp [hst]
    have ihv := ih (fun w hw => h w (List.mem_cons_of_mem v hw))
    simp [process_playlist_videos, hv, ihv]

/-- Claim C1 applied to a concrete fully-downloaded one-item list. -/
def c1wRec : VideoRecord :=
  ⟨some "t", "u1", "downloaded", some "ts", none, some "/a/f.mp4", none⟩

def c1wSt : EngineState := ⟨⟨some "A", some "A", "uA", [(some "v1", c1wRec)]⟩, [], []⟩

def c1wV : VideoDesc := ⟨some "v1", some "t", "u1", 0⟩

theorem c1_idempotent_rerun_witness :
    process_playlist_videos "/d" "now" (fun _ _ => Attempt.raise) c1wSt [c1wV] =
      (c1wSt, []) :=
  c1_idempotent_rerun "/d" "now" (fun _ _ => Attempt.raise) c1wSt [c1wV]
    (fun v hv => by
      have hv' : v = c1wV := by simpa using hv
      subst hv'
      exact ⟨c1wRec, rfl, rfl⟩)

/-! ## Claim C7 -/

/-- Claim C7 (confirmed): when the fetch fails after exhausting its retries,
the Global Item Index is unchanged, a `status=failed` record with a
`failed_at` timestamp and no provenance field (`file` and `copied_from` both
absent) is written to the List Status Store, exactly one fetch and both store
writes are emitted, and the loop continues with the remaining items of the
list instead of aborting. -/
theorem c7_fetch_failure_frame (dir now : String) (oracles : VideoDesc → Nat → Attempt)
    (st : EngineState) (v : VideoDesc) (vs : List VideoDesc)
    (hmd : alookup st.metadata.videos v.id = none)
    (hg : alookup st.gidx v.id = none)
    (hfail : (download_video (oracles v) st.fs).result = none) :
    (process_video_step dir now (oracles v) st v).1.gidx = st.gidx ∧
    alookup (process_video_step dir now (oracles v) st v).1.metadata.videos v.id =
      some ⟨v.title, v.url, "failed", none, some now, none, none⟩ ∧
    (process_video_step dir now (oracles v) st v).2 =
      [Event.fetch, Event.persistMeta, Event.persistIndex] ∧
    process_playlist_videos dir now oracles st (v :: vs) =
      ((process_playlist_videos dir now oracles
          (process_video_step dir now (oracles v) st v).1 vs).1,
       (process_video_step dir now (oracles v) st v).2 ++
       (process_playlist_videos dir now oracles
          (process_video_step dir now (oracles v) st v).1 vs).2) := by
  have hv : process_video_step dir now (oracles v) st v =
      ({ metadata := { st.metadata with
           videos := aupdate st.metadata.videos v.id ⟨v.title, v.url, "failed", none, some now, none, none⟩ },
         gidx := st.gidx, fs := (download_video (oracles v) st.fs).fs },
       [Event.fetch, Event.persistMeta, Event.persistIndex]) := by
    unfold process_video_step
    rw [hmd]
    unfold processVideoCore
    rw [hg]
    unfold fetchStep
    rw [hfail]
  refine ⟨by rw [hv], ?_, by rw [hv], rfl⟩
  rw [hv]
  exact alookup_aupdate_self _ _ _

/-- Claim C7 applied to a concrete empty store and always-raising oracle. -/
def c7wSt : EngineState := ⟨⟨some "A", some "A", "uA", []⟩, [], []⟩

def c7wV : VideoDesc := ⟨some "v1", some "t", "u1", 0⟩

theorem c7_fetch_failure_frame_witness :
    (process_video_step "/d" "now" (fun _ => Attempt.raise) c7wSt c7wV).1.gidx =
      c7wSt.gidx ∧
    alookup (process_video_step "/d" "now" (fun _ => Attempt.raise)
        c7wSt c7wV).1.metadata.videos c7wV.id =
      some ⟨c7wV.title, c7wV.url, "failed", none, some "now", none, none⟩ ∧
    (process_video_step "/d" "now" (fun _ => Attempt.raise) c7wSt c7wV).2 =
      [Event.fetch, Event.persistMeta, Event.persistIndex] ∧
    process_playlist_videos "/d" "now" (fun _ _ => Attempt.raise) c7wSt [c7wV] =
      ((process_playlist_videos "/d" "now" (fun _ _ => Attempt.raise)
          (process_video_step "/d" "now" (fun _ => Attempt.raise) c7wSt c7wV).1 []).1,
       (process_video_step "/d" "now" (fun _ => Attempt.raise) c7wSt c7wV).2 ++
       (process_playlist_videos "/d" "now" (fun _ _ => Attempt.raise)
          (process_video_step "/d" "now" (fun _ => Attempt.raise) c7wSt c7wV).1 []).2) :=
  c7_fetch_failure_frame "/d" "now" (fun _ _ => Attempt.raise) c7wSt c7wV [] rfl rfl rfl

/-! ## Claim C8 -/

/-- Claim C8 (confirmed): every processed (non-skipped) item — duplication
success, fetch success or fetch failure alike — ends its event trace with a
write of the List Status Store immediately followed by a write of the Global
Item Index; and the per-list loop emits each item's trace (persists included)
before touching the next item, so persistence is per-item, never batched per
list or deferred to the end of the run. -/
theorem c8_persist_after_every_item (dir now : String)
    (oracles : VideoDesc → Nat → Attempt) (st : EngineState) (v : VideoDesc)
    (vs : List VideoDesc)
    (h : ∀ r, alookup st.metadata.videos v.id = some r → r.status ≠ "downloaded") :
    (∃ pre, (process_video_step dir now (oracles v) st v).2 =
        pre ++ [Event.persistMeta, Event.persistIndex]) ∧
    (process_playlist_videos dir now oracles st (v :: vs)).2 =
      (process_video_step dir now (oracles v) st v).2 ++
      (process_playlist_videos dir now oracles
        (process_video_step dir now (oracles v) st v).1 vs).2 := by
  refine ⟨?_, rfl⟩
  have hcore := processVideoCore_events dir now (oracles v) st v
  have hstep : process_video_step dir now (oracles v) st v =
      processVideoCore dir now (oracles v) st v := by
    unfold process_video_step
    cases hmd : alookup st.metadata.videos v.id with
    | none => rfl
    | some r =>
      have hne := h r hmd
      simp [hne]
  rw [hstep]
  rcases hcore with h1 | h1
  · exact ⟨[], by rw [h1]; rfl⟩
  · exact ⟨[Event.fetch], by rw [h1]; rfl⟩

/-- Claim C8 applied to a concrete unprocessed item. -/
def c8wSt : EngineState := ⟨⟨some "A", some "A", "uA", []⟩, [], []⟩

def c8wV : VideoDesc := ⟨some "v1", some "t", "u1", 0⟩

theorem c8_persist_after_every_item_witness :
    (∃ pre, (process_video_step "/d" "now" (fun _ => Attempt.raise) c8wSt c8wV).2 =
        pre ++ [Event.persistMeta, Event.persistIndex]) ∧
    (process_playlist_videos "/d" "now" (fun _ _ => Attempt.raise) c8wSt [c8wV]).2 =
      (process_video_step "/d" "now" (fun _ => Attempt.raise) c8wSt c8wV).2 ++
      (process_playlist_videos "/d" "now" (fun _ _ => Attempt.raise)
        (process_video_step "/d" "now" (fun _ => Attempt.raise) c8wSt c8wV).1 []).2 :=
  c8_persist_after_every_item "/d" "now" (fun _ _ => Attempt.raise) c8wSt c8wV []
    (fun _ hr => nomatch hr)

/-! ## Claim C9 -/

/-- Claim C9 counterexample: a flat-extraction entry that is present but has
no resolvable id or title is NOT skipped with a warning — `get_playlist_videos`
keeps it as a descriptor (with the literal string `None` interpolated into
the fallback URL), and the orchestrator proceeds to invoke the fetcher for it
and to write a List Status Store record under the `None` key. -/
theorem c9_counterexample :
    get_playlist_videos [some ⟨none, none, none⟩] =
      [⟨none, none, "https://www.youtube.com/watch?v=None", 0⟩] ∧
    Event.fetch ∈ (process_video_step "/d" "t0" (fun _ => Attempt.raise)
      ⟨⟨some "L", some "List L", "uL", []⟩, [], []⟩
      ⟨none, none, "https://www.youtube.com/watch?v=None", 0⟩).2 ∧
    (alookup (process_video_step "/d" "t0" (fun _ => Attempt.raise)
        ⟨⟨some "L", some "List L", "uL", []⟩, [], []⟩
        ⟨none, none, "https://www.youtube.com/watch?v=None", 0⟩).1.metadata.videos
      none).map (fun r => r.status) = some "failed" := by
  refine ⟨rfl, ?_, rfl⟩
  decide

/-- Claim C9 (amended): only an entirely falsy enumeration entry is dropped
(silently, with no warning); a descriptor whose id is unresolvable (`None`)
is not skipped: the orchestrator still invokes the fetcher for it and writes
a List Status Store record keyed by the missing id. -/
theorem c9_amended (dir now : String) (oracle : Nat → Attempt) (st : EngineState)
    (v : VideoDesc) (hid : v.id = none)
    (hmd : alookup st.metadata.videos none = none)
    (hg : alookup st.gidx none = none) :
    Event.fetch ∈ (process_video_step dir now oracle st v).2 ∧
    (alookup (process_video_step dir now oracle st v).1.metadata.videos
      none).isSome = true := by
  have h1 : process_video_step dir now oracle st v = fetchStep now oracle st v := by
    unfold process_video_step
    rw [hid, hmd]
    unfold processVideoCore
    rw [hid, hg]
  rw [h1]
  unfold fetchStep
  cases hd : (download_video oracle st.fs).result with
  | some p =>
    refine ⟨by simp, ?_⟩
    rw [hid]
    simp [alookup_aupdate_self]
  | none =>
    refine ⟨by simp, ?_⟩
    rw [hid]
    simp [alookup_aupdate_self]

/-- Claim C9 amended, applied to a concrete id-less descriptor. -/
def c9wSt : EngineState := ⟨⟨some "L", some "List L", "uL", []⟩, [], []⟩

def c9wV : VideoDesc := ⟨none, none, "https://www.youtube.com/watch?v=None", 0⟩

theorem c9_amended_witness :
    Event.fetch ∈ (process_video_step "/d" "t0" (fun _ => Attempt.raise) c9wSt c9wV).2 ∧
    (alookup (process_video_step "/d" "t0" (fun _ => Attempt.raise)
      c9wSt c9wV).1.metadata.videos none).isSome = true :=
  c9_amended "/d" "t0" (fun _ => Attempt.raise) c9wSt c9wV rfl rfl rfl

/-! ## Claim C6 -/

/-- Claim C6 (confirmed): for an item known to the Global Item Index, the
Duplication Resolver selects the first recorded path (`files[0]`); when that
path no longer exists on disk it returns failure (touching nothing), and the
orchestrator then falls back to invoking the fetcher instead of recording a
failure — if the fetch succeeds the item's record becomes `status=downloaded`
with `file` provenance. -/
theorem c6_repair_fallback (dir now : String) (oracle : Nat → Attempt)
    (st : EngineState) (v : VideoDesc) (e : IdxRecord) (p : String) (ps : List String)
    (hmd : alookup st.metadata.videos v.id = none)
    (hg : alookup st.gidx v.id = some e)
    (hf : e.files = p :: ps)
    (hp : p ∉ st.fs) :
    copy_video_from_another_playlist st.gidx st.fs v.id dir = ⟨false, st.fs⟩ ∧
    Event.fetch ∈ (process_video_step dir now oracle st v).2 ∧
    (∀ q, (download_video oracle st.fs).result = some q →
      alookup (process_video_step dir now oracle st v).1.metadata.videos v.id =
        some ⟨v.title, v.url, "downloaded", some now, none, some q, none⟩) := by
  obtain ⟨et, efs⟩ := e
  have hf' : efs = p :: ps := hf
  subst hf'
  have hcopy : copy_video_from_another_playlist st.gidx st.fs v.id dir = ⟨false, st.fs⟩ := by
    unfold copy_video_from_another_playlist
    rw [hg]
    simp [hp]
  have h1 : process_video_step dir now oracle st v = fetchStep now oracle st v := by
    unfold process_video_step
    rw [hmd]
    unfold processVideoCore
    rw [hg]
    simp [hcopy]
  refine ⟨hcopy, ?_, ?_⟩
  · rw [h1, fetchStep_events]
    simp
  · intro q hq
    rw [h1]
    unfold fetchStep
    rw [hq]
    exact alookup_aupdate_self _ _ _

/-- Claim C6 applied to a concrete stale index entry and a succeeding fetch. -/
def c6wSt : EngineState :=
  ⟨⟨some "B", some "B", "uB", []⟩, [(some "v1", ⟨some "t", ["/a/f.mp4"]⟩)], []⟩

def c6wV : VideoDesc := ⟨some "v1", some "t", "u1", 0⟩

def c6wOracle : Nat → Attempt :=
  fun k => if k = 1 then Attempt.ok "/b/f.mp4" ["/b/f.mp4"] else Attempt.raise

theorem c6_repair_fallback_witness :
    copy_video_from_another_playlist c6wSt.gidx c6wSt.fs c6wV.id "/b" =
      ⟨false, c6wSt.fs⟩ ∧
    Event.fetch ∈ (process_video_step "/b" "now" c6wOracle c6wSt c6wV).2 ∧
    (∀ q, (download_video c6wOracle c6wSt.fs).result = some q →
      alookup (process_video_step "/b" "now" c6wOracle c6wSt c6wV).1.metadata.videos
        c6wV.id = some ⟨c6wV.title, c6wV.url, "downloaded", some "now", none, some q, none⟩) :=
  c6_repair_fallback "/b" "now" c6wOracle c6wSt c6wV ⟨some "t", ["/a/f.mp4"]⟩
    "/a/f.mp4" [] rfl rfl rfl (by decide)

/-! ## Claim C10 -/

/-- Soundness of the alternate-extension probe: a hit exists on disk and has
the shape `base ++ ext` for one of the probed extensions. -/
theorem findAlt_sound (fs : List String) (base : String) :
    ∀ (exts : List String) (p : String), findAlt fs base exts = some p →
      p ∈ fs ∧ ∃ ext, ext ∈ exts ∧ p = base ++ ext := by
  intro exts
  induction exts with
  | nil =>
    intro p h
    simp [findAlt] at h
  | cons e rest ih =>
    intro p h
    unfold findAlt at h
    by_cases hm : (base ++ e) ∈ fs
    · rw [if_pos hm] at h
      injection h with h'
      subst h'
      exact ⟨hm, e, List.mem_cons_self e rest, rfl⟩
    · rw [if_neg hm] at h
      obtain ⟨hp, ext, hext, hpe⟩ := ih p h
      exact ⟨hp, ext, List.mem_cons_of_mem e hext, hpe⟩

/-- Soundness of the retry loop: a returned path exists on the final
filesystem and is either some successful attempt's reported filename or that
filename's base re-extended with one of the alternate media extensions. -/
theorem downloadLoop_sound (oracle : Nat → Attempt) (L : List Nat) :
    ∀ (fs : List String) (waits : List Nat) (n : Nat) (p : String),
      (downloadLoop oracle L fs waits n).result = some p →
      p ∈ (downloadLoop oracle L fs waits n).fs ∧
      ∃ k, k ∈ L ∧ ∃ fname written, oracle k = Attempt.ok fname written ∧
        (p = fname ∨ ∃ ext, ext ∈ mediaExts ∧ p = (splitext fname).1 ++ ext) := by
  induction L with
  | nil =>
    intro fs waits n p h
    simp [downloadLoop] at h
  | cons a rest ih =>
    intro fs waits n p h
    cases ho : oracle a with
    | raise =>
      by_cases ha : a < MAX_RETRIES
      · have he : downloadLoop oracle (a :: rest) fs waits n =
            downloadLoop oracle rest fs (waits ++ [2 ^ a]) (n + 1) := by
          simp [downloadLoop, ho, ha]
        rw [he] at h ⊢
        obtain ⟨hmem, k, hk, hrest⟩ := ih fs (waits ++ [2 ^ a]) (n + 1) p h
        exact ⟨hmem, k, List.mem_cons_of_mem a hk, hrest⟩
      · have he : downloadLoop oracle (a :: rest) fs waits n =
            downloadLoop oracle rest fs waits (n + 1) := by
          simp [downloadLoop, ho, ha]
        rw [he] at h ⊢
        obtain ⟨hmem, k, hk, hrest⟩ := ih fs waits (n + 1) p h
        exact ⟨hmem, k, List.mem_cons_of_mem a hk, hrest⟩
    | noInfo =>
      have he : downloadLoop oracle (a :: rest) fs waits n =
          downloadLoop oracle rest fs waits (n + 1) := by
        simp [downloadLoop, ho]
      rw [he] at h ⊢
      obtain ⟨hmem, k, hk, hrest⟩ := ih fs waits (n + 1) p h
      exact ⟨hmem, k, List.mem_cons_of_mem a hk, hrest⟩
    | ok fname written =>
      by_cases hin : fname ∈ written.foldl fsAdd fs
      · have he : downloadLoop oracle (a :: rest) fs waits n =
            ⟨some fname, waits, n + 1, written.foldl fsAdd fs⟩ := by
          simp [downloadLoop, ho, hin]
        rw [he] at h ⊢
        injection h with h'
        subst h'
        exact ⟨hin, a, List.mem_cons_self a rest, fname, written, ho, Or.inl rfl⟩
      · cases hfa : findAlt (written.foldl fsAdd fs) ((splitext fname).1) mediaExts with
        | none =>
          have he : downloadLoop oracle (a :: rest) fs waits n =
              downloadLoop oracle rest (written.foldl fsAdd fs) waits (n + 1) := by
            simp [downloadLoop, ho, hin, hfa]
          rw [he] at h ⊢
          obtain ⟨hmem, k, hk, hrest⟩ := ih (written.foldl fsAdd fs) waits (n + 1) p h
          exact ⟨hmem, k, List.mem_cons_of_mem a hk, hrest⟩
        | some q =>
          have he : downloadLoop oracle (a :: rest) fs waits n =
              ⟨some q, waits, n + 1, written.foldl fsAdd fs⟩ := by
            simp [downloadLoop, ho, hin, hfa]
          rw [he] at h ⊢
          injection h with h'
          obtain ⟨hq, ext, hext, hqe⟩ :=
            findAlt_sound (written.foldl fsAdd fs) ((splitext fname).1) mediaExts q hfa
          subst h'
          exact ⟨hq, a, List.mem_cons_self a rest, fname, written, ho,
            Or.inr ⟨ext, hext, hqe⟩⟩

/-- Claim C10 (confirmed): whenever `download_video` returns a non-`None`
path, that path exists on disk at the moment of return, and it is either the
reported filename of one of the (at most `MAX_RETRIES`) successful attempts,
verified to exist, or that filename re-extended with one of the alternate
media extensions `.mp4`, `.webm`, `.mkv`, verified to exist. -/
theorem c10_result_exists_on_disk (oracle : Nat → Attempt) (fs : List String)
    (p : String) (h : (download_video oracle fs).result = some p) :
    p ∈ (download_video oracle fs).fs ∧
    ∃ k, 1 ≤ k ∧ k ≤ MAX_RETRIES ∧ ∃ fname written,
      oracle k = Attempt.ok fname written ∧
      (p = fname ∨ ∃ ext, ext ∈ mediaExts ∧ p = (splitext fname).1 ++ ext) := by
  have he : download_video oracle fs = downloadLoop oracle [1, 2, 3] fs [] 0 := rfl
  rw [he] at h ⊢
  obtain ⟨hmem, k, hk, hrest⟩ := downloadLoop_sound oracle [1, 2, 3] fs [] 0 p h
  have hk' : k = 1 ∨ k = 2 ∨ k = 3 := by simpa using hk
  refine ⟨hmem, k, ?_, ?_, hrest⟩ <;> rcases hk' with rfl | rfl | rfl <;> decide

/-- Claim C10 applied to a concrete oracle succeeding via the
alternate-extension probe. -/
def c10wOracle : Nat → Attempt :=
  fun k => if k = 1 then Attempt.ok "/d/t.mp4" ["/d/t.webm"] else Attempt.raise

theorem c10_result_exists_on_disk_witness :
    "/d/t.webm" ∈ (download_video c10wOracle []).fs ∧
    ∃ k, 1 ≤ k ∧ k ≤ MAX_RETRIES ∧ ∃ fname written,
      c10wOracle k = Attempt.ok fname written ∧
      ("/d/t.webm" = fname ∨ ∃ ext, ext ∈ mediaExts ∧
        "/d/t.webm" = (splitext fname).1 ++ ext) :=
  c10_result_exists_on_disk c10wOracle [] "/d/t.webm" rfl

/-! ## Claim C2 -/

/-- The failing scenario for claim C2: item `vid123`, titled `MyVideo`, is
already archived under list A (`/out/A/MyVideo.mp4`, recorded in the Global
Item Index); list B (`/out/B`) now processes it. -/
def c2St : EngineState :=
  ⟨⟨some "B", some "Playlist B", "urlB", []⟩,
   [(some "vid123", ⟨some "MyVideo", ["/out/A/MyVideo.mp4"]⟩)],
   ["/out/A/MyVideo.mp4"]⟩

def c2V : VideoDesc := ⟨some "vid123", some "MyVideo", "u", 0⟩

/-- Claim C2 (code bug): the duplication into list B succeeds — the copy
`/out/B/MyVideo.mp4` exists afterwards and the List Status Store records
`status=downloaded` with `copied_from` provenance — yet the item's `files`
list in the Global Item Index still has only its original single entry: the
index update at lines 489–493 only appends a path when some file in the
target directory has the video id in its name, and downloads are named from
the title (`%(title)s.%(ext)s`), so nothing matches and the new copy's path
is never appended. -/
theorem c2_copy_does_not_append_to_index :
    (copy_video_from_another_playlist c2St.gidx c2St.fs (some "vid123") "/out/B").ok
      = true ∧
    "/out/B/MyVideo.mp4" ∈
      (process_video_step "/out/B" "t0" (fun _ => Attempt.raise) c2St c2V).1.fs ∧
    (alookup (process_video_step "/out/B" "t0" (fun _ => Attempt.raise)
        c2St c2V).1.metadata.videos (some "vid123")).map
      (fun r => (r.status, r.copied_from)) =
      some ("downloaded", some "/out/A/MyVideo.mp4") ∧
    (alookup (process_video_step "/out/B" "t0" (fun _ => Attempt.raise)
        c2St c2V).1.gidx (some "vid123")).map (fun r => r.files) =
      some ["/out/A/MyVideo.mp4"] := by
  refine ⟨rfl, ?_, rfl, rfl⟩
  decide

/-! ## Claim C5 -/

/-- The failing scenario for claim C5: the index records `/out/A/T.mp4` for
item `v1`, but the file has been deleted from disk and list A's metadata was
lost, so re-processing falls back to a fetch that recreates the very same
path. -/
def c5St : EngineState :=
  ⟨⟨some "A", some "Playlist A", "urlA", []⟩,
   [(some "v1", ⟨some "T", ["/out/A/T.mp4"]⟩)],
   []⟩

def c5V : VideoDesc := ⟨some "v1", some "T", "u", 0⟩

def c5Oracle : Nat → Attempt :=
  fun k => if k = 1 then Attempt.ok "/out/A/T.mp4" ["/out/A/T.mp4"] else Attempt.raise

/-- Claim C5 counterexample: the fetch-success index update (lines 516–522)
appends unconditionally, so after the re-fetch the item's `files` list is
`[/out/A/T.mp4, /out/A/T.mp4]` — a duplicate path entry, contradicting the
claimed pairwise-distinctness after every operation. -/
theorem c5_counterexample :
    (alookup (process_video_step "/out/A" "t0" c5Oracle c5St c5V).1.gidx
        (some "v1")).map (fun r => r.files) =
      some ["/out/A/T.mp4", "/out/A/T.mp4"] ∧
    ¬ (["/out/A/T.mp4", "/out/A/T.mp4"] : List String).Nodup := by
  refine ⟨rfl, ?_⟩
  decide

/-- Claim C5 (amended): recording a file for an unknown item creates a record
with `files = [path]`; the duplication-path index update (lines 489–493)
appends only when the path is not already present, so it preserves
pairwise-distinctness — but the fetch-path update (lines 516–522) appends
unconditionally, so a fetch that returns an already-recorded path duplicates
it (see the counterexample). -/
theorem c5_amended :
    (∀ (gidx : GlobalIndex) (vid title : Option String) (p : String),
      alookup gidx vid = none →
      alookup (recordNewFileFetch gidx vid title p) vid = some ⟨title, [p]⟩) ∧
    (∀ (gidx : GlobalIndex) (vid : Option String) (ms : List String)
      (e e' : IdxRecord),
      alookup gidx vid = some e → e.files.Nodup →
      alookup (updateIndexAfterCopy gidx vid ms) vid = some e' → e'.files.Nodup) := by
  constructor
  · intro gidx vid title p h
    have h2 : alookup (gidx ++ [(vid, (⟨title, []⟩ : IdxRecord))]) vid =
        some ⟨title, []⟩ := by
      rw [alookup_append_of_none _ _ _ h]
      simp [alookup]
    unfold recordNewFileFetch
    rw [h]
    simp only [h2]
    exact alookup_aupdate_self _ _ _
  · intro gidx vid ms e e' he hnd h'
    cases ms with
    | nil =>
      simp only [updateIndexAfterCopy] at h'
      rw [he] at h'
      injection h' with h''
      rw [← h'']
      exact hnd
    | cons fp rest =>
      simp only [updateIndexAfterCopy, he] at h'
      by_cases hfp : fp ∈ e.files
      · rw [if_pos hfp] at h'
        rw [he] at h'
        injection h' with h''
        rw [← h'']
        exact hnd
      · rw [if_neg hfp] at h'
        rw [alookup_aupdate_self] at h'
        injection h' with h''
        rw [← h'']
        rw [List.nodup_append]
        refine ⟨hnd, List.nodup_singleton fp, ?_⟩
        intro x hx hx'
        rw [List.mem_singleton] at hx'
        subst hx'
        exact hfp hx

/-- Claim C5 amended, applied at concrete inputs: a fresh record gets exactly
one path; the duplication-path update keeps a distinct-path list distinct. -/
theorem c5_amended_witness :
    alookup (recordNewFileFetch [] (some "v") (some "t") "/p.mp4") (some "v") =
      some ⟨some "t", ["/p.mp4"]⟩ ∧
    ((⟨none, ["/a.mp4", "/b.mp4"]⟩ : IdxRecord)).files.Nodup :=
  ⟨c5_amended.1 [] (some "v") (some "t") "/p.mp4" rfl,
   c5_amended.2 [(some "v", ⟨none, ["/a.mp4"]⟩)] (some "v") ["/b.mp4"]
     ⟨none, ["/a.mp4"]⟩ ⟨none, ["/a.mp4", "/b.mp4"]⟩ rfl (by decide) rfl⟩
